import Mathlib

/-!
# Verification of the polarity semantic core

A shallow embedding of the evaluator (`src/lang/elaborator/src/normalizer/eval.rs`),
the declaration table (`src/lang/syntax/src/trees/ast/generic/lookup.rs`),
the xfunctionalization edit generator (`src/lang/query/src/xfunc.rs`), and
the test-runner CLI entry point (`src/test/test-runner/src/cli/run.rs`),
together with theorems checking the natural-language specification against it.
-/

namespace Polarity

/-- A source span: byte offsets, 0-based, half-open. -/
structure Span where
  start : Nat
  stop : Nat
deriving DecidableEq, Repr

/-- The kind of a `Call` expression: a true constructor, a codefinition,
or a top-level definition (field `kind` of `Call` in the generic syntax). -/
inductive CallKind where
  | ctor
  | codef
  | defKind
deriving DecidableEq, Repr

mutual

/-- The expression sum of the generic syntax tree, as consumed by `eval.rs`:
`Variable`, `TypCtor`, `Call`, `DotCall`, `Anno`, `TypeUniv`, `LocalMatch`,
`LocalComatch`, `Hole`. Parameter telescopes are represented by their length,
which is all `eval.rs` uses (`params.len()`). -/
inductive Exp where
  | var (span : Option Span) (idx : Nat)
  | typCtor (span : Option Span) (name : String) (args : List Exp)
  | call (span : Option Span) (name : String) (kind : CallKind) (args : List Exp)
  | dotCall (span : Option Span) (exp : Exp) (name : String) (args : List Exp)
  | anno (exp : Exp) (typ : Exp)
  | typeUniv (span : Option Span)
  | localMatch (span : Option Span) (name : String) (onExp : Exp) (body : SMatch)
  | localComatch (span : Option Span) (name : String) (isLambdaSugar : Bool) (body : SMatch)
  | hole (span : Option Span)

/-- A source-level (co)match body: a sequence of cases (`Match` in the generic syntax). -/
inductive SMatch where
  | mk (span : Option Span) (cases : List SCase) (omitAbsurd : Bool)

/-- A source-level case: `Case { span, name, params, body }`; `body = none`
means the case is declared absurd. -/
inductive SCase where
  | mk (span : Option Span) (name : String) (params : Nat) (body : Option Exp)

end

/-- The cases of a source-level match body. -/
def SMatch.cases : SMatch → List SCase
  | .mk _ cs _ => cs

/-- The span of a source-level match body. -/
def SMatch.span : SMatch → Option Span
  | .mk s _ _ => s

/-- The omit-absurd flag of a source-level match body. -/
def SMatch.omitAbsurd : SMatch → Bool
  | .mk _ _ o => o

/-- The name of a source-level case. -/
def SCase.name : SCase → String
  | .mk _ n _ _ => n

/-- The span of a source-level case. -/
def SCase.span : SCase → Option Span
  | .mk s _ _ _ => s

/-- The number of parameters of a source-level case. -/
def SCase.params : SCase → Nat
  | .mk _ _ p _ => p

/-- The body of a source-level case (`none` = absurd). -/
def SCase.body : SCase → Option Exp
  | .mk _ _ _ b => b

/-! ## Declaration table (`lookup.rs`) -/

/-- The kind of a top-level declaration (`DeclKind`). -/
inductive DeclKind where
  | data
  | codata
  | defKind
  | codef
  | ctor
  | dtor
deriving DecidableEq, Repr

/-- A `data` type declaration (payload restricted to what the claims need). -/
structure DataDecl where
  name : String
deriving DecidableEq, Repr

/-- A `codata` type declaration. -/
structure CodataDecl where
  name : String
deriving DecidableEq, Repr

/-- A top-level `def` declaration: eliminates a data type; its body is a match. -/
structure DefDecl where
  name : String
  body : SMatch

/-- A top-level `codef` declaration: introduces a codata type; its body is a comatch. -/
structure CodefDecl where
  name : String
  body : SMatch

/-- A constructor declaration. -/
structure CtorDecl where
  name : String
deriving DecidableEq, Repr

/-- A destructor declaration. -/
structure DtorDecl where
  name : String
deriving DecidableEq, Repr

/-- The declaration sum stored in the name→declaration map (`Decl`). -/
inductive Decl where
  | data (d : DataDecl)
  | codata (d : CodataDecl)
  | defDecl (d : DefDecl)
  | codef (d : CodefDecl)
  | ctor (d : CtorDecl)
  | dtor (d : DtorDecl)

/-- The kind of a declaration (`Decl::kind`). -/
def Decl.kind : Decl → DeclKind
  | .data _ => .data
  | .codata _ => .codata
  | .defDecl _ => .defKind
  | .codef _ => .codef
  | .ctor _ => .ctor
  | .dtor _ => .dtor

/-- Typed lookup errors (`LookupError`): `UndefinedDeclaration`,
`InvalidDeclarationKind { name, expected, actual }`, `MissingTypeDeclaration`. -/
inductive LookupError where
  | undefinedDeclaration (name : String) (span : Option Span)
  | invalidDeclarationKind (name : String) (expected : List DeclKind) (actual : DeclKind)
      (span : Option Span)
  | missingTypeDeclaration (name : String) (span : Option Span)

/-- Association-list lookup, standing in for the hash-map reads of `lookup.rs`. -/
def lookupA {α : Type} (l : List (String × α)) (name : String) : Option α :=
  (l.find? (fun p => p.1 == name)).map (fun p => p.2)

/-- A module's declarations: the name→declaration map together with the lookup
table's two reverse indices `xtor_to_type` and `xdef_to_type` (`Decls` plus
`lookup_table`). -/
structure Decls where
  map : List (String × Decl)
  xtorToType : List (String × String)
  xdefToType : List (String × String)

/-- `Decls::decl`: the raw map read; a missing name is `UndefinedDeclaration`. -/
def Decls.decl (decls : Decls) (name : String) (span : Option Span) :
    Except LookupError Decl :=
  match lookupA decls.map name with
  | some d => .ok d
  | none => .error (.undefinedDeclaration name span)

/-- The result shape of `Decls::typ`: a data or codata declaration
(`Type` in `lookup.rs`, `DataCodata` at the evaluator's use site). -/
inductive DataCodata where
  | data (d : DataDecl)
  | codata (d : CodataDecl)

/-- `Decls::typ`: expects the name to denote a data or codata declaration. -/
def Decls.typ (decls : Decls) (name : String) (span : Option Span) :
    Except LookupError DataCodata := do
  match ← decls.decl name span with
  | .data d => .ok (.data d)
  | .codata d => .ok (.codata d)
  | other => .error (.invalidDeclarationKind name [.data, .codata] other.kind span)

/-- `Decls::data`: expects a data declaration. -/
def Decls.data (decls : Decls) (name : String) (span : Option Span) :
    Except LookupError DataDecl := do
  match ← decls.decl name span with
  | .data d => .ok d
  | other => .error (.invalidDeclarationKind name [.data] other.kind span)

/-- `Decls::codata`: expects a codata declaration. -/
def Decls.codata (decls : Decls) (name : String) (span : Option Span) :
    Except LookupError CodataDecl := do
  match ← decls.decl name span with
  | .codata d => .ok d
  | other => .error (.invalidDeclarationKind name [.codata] other.kind span)

/-- `Decls::def`: expects a `def` declaration (renamed: `def` is reserved in Lean). -/
def Decls.lookupDef (decls : Decls) (name : String) (span : Option Span) :
    Except LookupError DefDecl := do
  match ← decls.decl name span with
  | .defDecl d => .ok d
  | other => .error (.invalidDeclarationKind name [.defKind] other.kind span)

/-- `Decls::codef`: expects a `codef` declaration. -/
def Decls.lookupCodef (decls : Decls) (name : String) (span : Option Span) :
    Except LookupError CodefDecl := do
  match ← decls.decl name span with
  | .codef d => .ok d
  | other => .error (.invalidDeclarationKind name [.codef] other.kind span)

/-- `Decls::ctor`: expects a constructor declaration. -/
def Decls.ctor (decls : Decls) (name : String) (span : Option Span) :
    Except LookupError CtorDecl := do
  match ← decls.decl name span with
  | .ctor d => .ok d
  | other => .error (.invalidDeclarationKind name [.ctor] other.kind span)

/-- `Decls::dtor`: expects a destructor declaration. -/
def Decls.dtor (decls : Decls) (name : String) (span : Option Span) :
    Except LookupError DtorDecl := do
  match ← decls.decl name span with
  | .dtor d => .ok d
  | other => .error (.invalidDeclarationKind name [.dtor] other.kind span)

/-- `Decls::ctor_or_codef`: a constructor, or a codef viewed as a constructor.
The codef→ctor conversion (`to_ctor`) keeps the name. -/
def Decls.ctorOrCodef (decls : Decls) (name : String) (span : Option Span) :
    Except LookupError CtorDecl := do
  match ← decls.decl name span with
  | .ctor d => .ok d
  | .codef d => .ok { name := d.name }
  | other => .error (.invalidDeclarationKind name [.ctor, .codef] other.kind span)

/-- `Decls::dtor_or_def`: a destructor, or a def viewed as a destructor. -/
def Decls.dtorOrDef (decls : Decls) (name : String) (span : Option Span) :
    Except LookupError DtorDecl := do
  match ← decls.decl name span with
  | .dtor d => .ok d
  | .defDecl d => .ok { name := d.name }
  | other => .error (.invalidDeclarationKind name [.dtor, .defKind] other.kind span)

/-- `Decls::type_decl_for_member`: consult the xtor index, then on a miss the
xdef index; if both miss, fail with `MissingTypeDeclaration`; otherwise look up
the owning type declaration via `typ` (with span `none`). -/
def Decls.typeDeclForMember (decls : Decls) (name : String) (span : Option Span) :
    Except LookupError DataCodata :=
  match (lookupA decls.xtorToType name).orElse (fun _ => lookupA decls.xdefToType name) with
  | none => .error (.missingTypeDeclaration name span)
  | some t => decls.typ t none

/-! ## Values and environments (`val.rs`, `env.rs`) -/

mutual

/-- The value sum (`Val`): `TypCtor`, `Ctor { span, kind, name, args }`,
`Comatch`, `TypeUniv`, `Neu`. -/
inductive Val where
  | typCtor (span : Option Span) (name : String) (args : List Val)
  | ctor (span : Option Span) (kind : CallKind) (name : String) (args : List Val)
  | comatch (span : Option Span) (name : String) (isLambdaSugar : Bool) (body : VMatch)
  | typeUniv (span : Option Span)
  | neu (exp : Neu)

/-- Neutral terms (`Neu`): blocked reductions. -/
inductive Neu where
  | var (span : Option Span) (idx : Nat)
  | dtor (span : Option Span) (exp : Neu) (name : String) (args : List Val)
  | neuMatch (span : Option Span) (name : String) (onExp : Neu) (body : VMatch)
  | hole (span : Option Span)

/-- An evaluated (co)match body (`val::Match`). -/
inductive VMatch where
  | mk (span : Option Span) (cases : List VCase) (omitAbsurd : Bool)

/-- An evaluated case (`val::Case`): its body, when present, is a closure. -/
inductive VCase where
  | mk (span : Option Span) (name : String) (params : Nat) (body : Option Closure)

/-- A closure (`Closure`): a captured body expression, its arity `n_args`,
and the environment at capture time. -/
inductive Closure where
  | mk (body : Exp) (nArgs : Nat) (env : List Val)

end

/-- The cases of an evaluated match body. -/
def VMatch.cases : VMatch → List VCase
  | .mk _ cs _ => cs

/-- The name of an evaluated case. -/
def VCase.name : VCase → String
  | .mk _ n _ _ => n

/-- The body of an evaluated case (`none` = absurd). -/
def VCase.body : VCase → Option Closure
  | .mk _ _ _ b => b

/-- The captured body of a closure. -/
def Closure.body : Closure → Exp
  | .mk b _ _ => b

/-- The arity of a closure. -/
def Closure.nArgs : Closure → Nat
  | .mk _ n _ => n

/-- The captured environment of a closure. -/
def Closure.env : Closure → List Val
  | .mk _ _ e => e

/-- Modelled from the spec: the environment (`env.rs` is not part of the
sources). "A stack of bound values indexed by de Bruijn index (distance from
innermost binder)"; the innermost binding is the head of the list. -/
abbrev Env := List Val

/-- Modelled from the spec: binding an argument list on top of an environment
(the push half of `bind_iter`). Arguments are pushed in iteration order, so the
last argument ends up innermost. -/
def Env.bind (args : List Val) (env : Env) : Env :=
  args.reverse ++ env

/-! ## Evaluation errors -/

/-- The subset of the type-error sum (`TypeError`) reachable from `eval.rs`:
`Impossible { message, span }` and transparently wrapped lookup errors. -/
inductive TypeError where
  | impossible (message : String) (span : Option Span)
  | lookup (e : LookupError)

/-- An evaluation outcome that is not a value: a propagated `TypeError`, a Rust
panic (the behaviour of `unwrap`/`unreachable!`, which is not an error return),
or exhaustion of the step-counting fuel that makes the embedding total. -/
inductive Err where
  | typeErr (e : TypeError)
  | panic (msg : String)
  | outOfFuel

/-- Evaluation results. -/
abbrev Res (α : Type) := Except Err α

/-- The message of the panic raised by `Option::unwrap` on `None`. -/
def unwrapMsg : String := "called Option.unwrap on a None value"

/-- The message of the panic raised by the `unreachable!` macro arms. -/
def unreachableMsg : String := "internal error: entered unreachable code"

/-- Modelled from the spec: `env.lookup(idx)` returns the bound value; an
out-of-range index is an index-out-of-bounds panic in Rust. -/
def Env.lookup (env : Env) (idx : Nat) : Res Val :=
  match env.get? idx with
  | some v => .ok v
  | none => .error (.panic "index out of bounds")

/-- The program handed to the evaluator (`Prg`): its declaration table. -/
structure Prg where
  decls : Decls

/-- `impl Eval for Case`: evaluating a source case builds a value case whose
body, when present, is a closure capturing a clone of the current environment,
with `n_args = params.len()`. No recursive evaluation happens here. -/
def evalCase (env : Env) (c : SCase) : VCase :=
  .mk c.span c.name c.params (c.body.map (fun b => Closure.mk b c.params env))

/-- `impl Eval for Match`: evaluating a source match body evaluates each case.
This is infallible in `eval.rs` (every case evaluation returns `Ok`). -/
def evalSMatch (m : SMatch) (env : Env) : VMatch :=
  .mk m.span (m.cases.map (evalCase env)) m.omitAbsurd

mutual

/-- The evaluator (`impl Eval for Exp` and the per-variant impls), made total
by a fuel parameter; every recursive call decreases the fuel. The Rust `&mut
Env` parameter is modelled by threading the environment through: the second
component of the result is the environment as `eval` leaves it. -/
def evalExp : Nat → Prg → Exp → Env → Res Val × Env
  | 0, _, _, env => (.error .outOfFuel, env)
  | fuel + 1, prg, e, env =>
    match e with
    | .var _ idx => (env.lookup idx, env)
    | .typCtor span name args =>
      match evalExps fuel prg args env with
      | (.ok vs, env1) => (.ok (.typCtor span name vs), env1)
      | (.error err, env1) => (.error err, env1)
    | .call span name kind args =>
      match evalExps fuel prg args env with
      | (.ok vs, env1) => (.ok (.ctor span kind name vs), env1)
      | (.error err, env1) => (.error err, env1)
    | .dotCall span exp name args =>
      match evalExp fuel prg exp env with
      | (.error err, env1) => (.error err, env1)
      | (.ok v, env1) =>
        match evalExps fuel prg args env1 with
        | (.error err, env2) => (.error err, env2)
        | (.ok vs, env2) =>
          match v with
          | .ctor cspan _ ctorName ctorArgs =>
            match prg.decls.typeDeclForMember ctorName cspan with
            | .error e => (.error (.typeErr (.lookup e)), env2)
            | .ok (.data _) =>
              match prg.decls.lookupDef name none with
              | .error e => (.error (.typeErr (.lookup e)), env2)
              | .ok fd =>
                (betaMatch fuel prg (evalSMatch fd.body (Env.bind vs [])) ctorName ctorArgs,
                  env2)
            | .ok (.codata _) =>
              match prg.decls.lookupCodef ctorName none with
              | .error e => (.error (.typeErr (.lookup e)), env2)
              | .ok gd =>
                (betaComatch fuel prg (evalSMatch gd.body (Env.bind ctorArgs [])) name vs,
                  env2)
          | .comatch _ _ _ body => (betaComatch fuel prg body name vs, env2)
          | .neu x => (.ok (.neu (.dtor span x name vs)), env2)
          | _ => (.error (.panic unreachableMsg), env2)
    | .anno exp _ => evalExp fuel prg exp env
    | .typeUniv span => (.ok (.typeUniv span), env)
    | .localMatch _ matchName onExp body =>
      match evalExp fuel prg onExp env with
      | (.error err, env1) => (.error err, env1)
      | (.ok v, env1) =>
        let vbody := evalSMatch body env1
        match v with
        | .ctor _ _ ctorName args => (betaMatch fuel prg vbody ctorName args, env1)
        | .neu x => (.ok (.neu (.neuMatch none matchName x vbody)), env1)
        | _ => (.error (.panic unreachableMsg), env1)
    | .localComatch span name isLambdaSugar body =>
      (.ok (.comatch span name isLambdaSugar (evalSMatch body env)), env)
    | .hole span => (.ok (.neu (.hole span)), env)

/-- Left-to-right evaluation of an argument list (`impl Eval for Vec<T>` /
`Args`), short-circuiting on the first error. -/
def evalExps : Nat → Prg → List Exp → Env → Res (List Val) × Env
  | 0, _, _, env => (.error .outOfFuel, env)
  | _ + 1, _, [], env => (.ok [], env)
  | fuel + 1, prg, e :: es, env =>
    match evalExp fuel prg e env with
    | (.error err, env1) => (.error err, env1)
    | (.ok v, env1) =>
      match evalExps fuel prg es env1 with
      | (.error err, env2) => (.error err, env2)
      | (.ok vs, env2) => (.ok (v :: vs), env2)

/-- `beta_match`: find the first case whose name equals the constructor name
and apply its body closure to the runtime arguments. Both the case lookup and
the body access go through `unwrap`, so a missing case or an absurd case is a
panic, not an error return. -/
def betaMatch : Nat → Prg → VMatch → String → List Val → Res Val
  | 0, _, _, _, _ => .error .outOfFuel
  | fuel + 1, prg, body, ctorName, args =>
    match body.cases.find? (fun cs => cs.name == ctorName) with
    | none => .error (.panic unwrapMsg)
    | some cs =>
      match cs.body with
      | none => .error (.panic unwrapMsg)
      | some cl => applyClosure fuel prg cl args

/-- `beta_comatch`: the dual of `beta_match`, dispatching on a destructor name. -/
def betaComatch : Nat → Prg → VMatch → String → List Val → Res Val
  | 0, _, _, _, _ => .error .outOfFuel
  | fuel + 1, prg, body, dtorName, args =>
    match body.cases.find? (fun cocase => cocase.name == dtorName) with
    | none => .error (.panic unwrapMsg)
    | some cocase =>
      match cocase.body with
      | none => .error (.panic unwrapMsg)
      | some cl => applyClosure fuel prg cl args

/-- `impl Apply for Closure`: bind the arguments on top of the captured
environment in a scope and evaluate the captured body there. The scope's
environment is temporary, so only the result value is kept. -/
def applyClosure : Nat → Prg → Closure → List Val → Res Val
  | 0, _, _, _ => .error .outOfFuel
  | fuel + 1, prg, cl, args => (evalExp fuel prg cl.body (Env.bind args cl.env)).1

end

/-! ## Xfunctionalization edit generation (`xfunc.rs`) -/

/-- A textual edit: replace the text at `span` by `text`. -/
structure Edit where
  span : Span
  text : String
deriving DecidableEq, Repr

/-- The result of the xfunc operation: a title and an edit set. -/
structure Xfunc where
  title : String
  edits : List Edit
deriving DecidableEq, Repr

/-- A top-level declaration as seen by the xfunc driver (`ast::Decl`): only its
name and optional source span matter for edit generation; `payload` stands for
the rest of the declaration, which is only passed through to printing and
renaming. -/
structure MDecl where
  name : String
  span : Option Span
  payload : String
deriving DecidableEq, Repr

/-- A loaded module (`ast::Module`), restricted to its declaration sequence. -/
structure Module where
  decls : List MDecl

/-- `Module::lookup_decl`: find a declaration by name. -/
def Module.lookupDecl (m : Module) (name : String) : Option MDecl :=
  m.decls.find? (fun d => d.name == name)

/-- The `Original` record of `xfunc.rs`: the xdefs of the pivoted type, the
source span of the original (co)data declaration, and the name→span map of all
top-level declarations. -/
structure Original where
  xdefs : List String
  typeSpan : Span
  declSpans : List (String × Span)

/-- The `XfuncResult` record: the title and the new declarations (the pivoted
(co)data declaration followed by its associated (co)definitions). -/
structure XfuncResult where
  title : String
  newDecls : List MDecl

/-- `XfuncError`: the only failure `xfunc` reports as an error value. -/
inductive XfuncError where
  | impossible (message : String) (span : Option Span)
deriving Repr

/-- An xfunc outcome that is not an `Xfunc`: either a Rust panic (from `unwrap`
or hash-map indexing) or a reported `XfuncError`. -/
inductive XErr where
  | panic (msg : String)
  | xerr (e : XfuncError)
deriving Repr

/-- The message of the panic raised by indexing a hash map at a missing key. -/
def noEntryMsg : String := "no entry found for key"

/-- Monadic map over a list in `Except`, short-circuiting on the first error. -/
def mapME {ε α β : Type} (f : α → Except ε β) : List α → Except ε (List β)
  | [] => .ok []
  | a :: l => do
    let b ← f a
    let bs ← mapME f l
    .ok (b :: bs)

/-- Look up the span recorded for a declaration name. -/
def lookupSpan (spans : List (String × Span)) (name : String) : Option Span :=
  (spans.find? (fun p => p.1 == name)).map (fun p => p.2)

/-- The `decl_spans` collection of `Database::xfunc`: for every top-level
declaration, pair its name with `decl.span().unwrap()` — a span-less
declaration is an unwrap panic. -/
def collectDeclSpans (decls : List MDecl) : Except XErr (List (String × Span)) :=
  mapME
    (fun d =>
      match d.span with
      | some s => .ok (d.name, s)
      | none => .error (.panic unwrapMsg))
    decls

/-- The loop body of `generate_edits` for one dirty declaration: look the
declaration up in the module (`unwrap`!), read its span from `decl_spans`
(hash-map indexing, a panic when absent), rename, re-print, and build the edit. -/
def dirtyEditOf (printD : MDecl → String) (rename : MDecl → MDecl) (module : Module)
    (declSpans : List (String × Span)) (name : String) : Except XErr Edit := do
  let decl ← match module.lookupDecl name with
    | some d => Except.ok d
    | none => Except.error (XErr.panic unwrapMsg)
  let span ← match lookupSpan declSpans name with
    | some s => Except.ok s
    | none => Except.error (XErr.panic noEntryMsg)
  Except.ok (Edit.mk span (printD (rename decl)))

/-- The loop body of `generate_edits` for one absorbed xdef: an empty-text edit
at the declaration's recorded span. -/
def deleteEditOf (declSpans : List (String × Span)) (name : String) : Except XErr Edit :=
  match lookupSpan declSpans name with
  | some s => Except.ok (Edit.mk s "")
  | none => Except.error (XErr.panic noEntryMsg)

/-- `generate_edits`: one edit replacing the whole span of the original
(co)data declaration with the serialized new declarations, one edit per dirty
declaration (looked up in the module, renamed, re-printed, placed at its
recorded span), and one empty-text edit per original xdef. The printer and
renamer are external collaborators and are taken as parameters. -/
def generateEdits (printM : List MDecl → String) (printD : MDecl → String)
    (rename : MDecl → MDecl) (module : Module) (original : Original)
    (dirtyDecls : List String) (result : XfuncResult) : Except XErr Xfunc := do
  let typeText := printM result.newDecls
  let dirtyEdits ← mapME (dirtyEditOf printD rename module original.declSpans) dirtyDecls
  let deleteEdits ← mapME (deleteEditOf original.declSpans) original.xdefs
  .ok { title := result.title
        edits := Edit.mk original.typeSpan typeText :: (dirtyEdits ++ deleteEdits) }

/-- The span-relevant skeleton of `Database::xfunc` after module loading: it
collects `decl_spans` (unwrapping each span), filters the dirty declarations
reported by lifting against the xdefs and xtors of the pivoted type, resolves
the type's span from the matrix row (an `Impossible` error when missing), and
generates the edits. Lifting, matrix construction, and the pivot itself are
external to the sources and enter as the parameters `dirtyFromLift`,
`matRowSpan`, and `result`. -/
def xfuncSkeleton (printM : List MDecl → String) (printD : MDecl → String)
    (rename : MDecl → MDecl) (module : Module) (typeName : String)
    (xdefs xtors dirtyFromLift : List String) (matRowSpan : Option (Option Span))
    (result : XfuncResult) : Except XErr Xfunc := do
  let declSpans ← collectDeclSpans module.decls
  let dirtyDecls := dirtyFromLift.filter
    (fun n => !(xdefs.contains n || xtors.contains n))
  let typeSpan ← match matRowSpan with
    | some (some s) => Except.ok s
    | _ => Except.error (XErr.xerr (.impossible ("Could not resolve " ++ typeName) none))
  generateEdits printM printD rename module
    { xdefs := xdefs, typeSpan := typeSpan, declSpans := declSpans } dirtyDecls result

/-- Two spans are disjoint when one ends before the other starts (half-open). -/
def Span.Disjoint (s t : Span) : Prop :=
  s.stop ≤ t.start ∨ t.stop ≤ s.start

instance (s t : Span) : Decidable (Span.Disjoint s t) := by
  unfold Span.Disjoint; infer_instance

/-! ## Test-runner CLI (`run.rs`) -/

/-- The parsed CLI arguments of the test runner (`Args`). -/
structure Args where
  filter : Option String
  debug : Bool
  updateExpected : Bool

/-- The runner configuration (`runner::Config`). -/
structure Config where
  filter : String
  debug : Bool
deriving DecidableEq, Repr

/-- The observable result of a test run: whether every test passed
(`res.success()`); the per-test details are opaque here. -/
structure RunResult where
  success : Bool

/-- The observable behaviour of one `exec` invocation: the configuration the
runner was given, which messages were printed, and the process exit code. -/
structure ExecTrace where
  config : Config
  updatedExpected : Bool
  printedPerTest : Bool
  printedUpdateMsg : Bool
  exitCode : Nat
deriving DecidableEq, Repr

/-- `exec`: build the config (filter defaulting to `"*"`), run the suite, then
either update the expected outputs and print a confirmation, or print the
per-test results; exit with code 1 unless the run succeeded. The runner itself
is an external collaborator and is taken as a parameter. -/
def exec (run : Config → RunResult) (cmd : Args) : ExecTrace :=
  let config : Config := { filter := cmd.filter.getD "*", debug := cmd.debug }
  let res := run config
  if cmd.updateExpected then
    { config := config, updatedExpected := true, printedPerTest := false,
      printedUpdateMsg := true, exitCode := if !res.success then 1 else 0 }
  else
    { config := config, updatedExpected := false, printedPerTest := true,
      printedUpdateMsg := false, exitCode := if !res.success then 1 else 0 }

/-! ## Observers and concrete test fixtures -/

/-- Does an evaluation result denote the `unwrap`-on-`None` panic? -/
def resIsUnwrapPanic (r : Res Val) : Bool :=
  match r with
  | .error (.panic m) => m == unwrapMsg
  | _ => false

/-- Does an evaluation result denote an `Impossible { message }` error value? -/
def resIsImpossible (r : Res Val) : Bool :=
  match r with
  | .error (.typeErr (.impossible _ _)) => true
  | _ => false

/-- A program with an empty declaration table. -/
def prgEmpty : Prg := ⟨⟨[], [], []⟩⟩

/-- An evaluated match body with no cases at all. -/
def matchNoCases : VMatch := .mk none [] false

/-- An evaluated match body whose only case, `C`, is declared absurd. -/
def matchAbsurd : VMatch := .mk none [.mk none "C" 0 none] false

/-- The body of `def Bool.not { T => F, F => T }`. -/
def notBody : SMatch :=
  .mk none
    [.mk none "T" 0 (some (Exp.call none "F" .ctor [])),
     .mk none "F" 0 (some (Exp.call none "T" .ctor []))]
    false

/-- A declaration table for `data Bool { T, F }` with `def Bool.not`. -/
def declsEx : Decls :=
  { map :=
      [("Bool", .data ⟨"Bool"⟩),
       ("T", .ctor ⟨"T"⟩),
       ("F", .ctor ⟨"F"⟩),
       ("not", .defDecl ⟨"not", notBody⟩)]
    xtorToType := [("T", "Bool"), ("F", "Bool")]
    xdefToType := [("not", "Bool")] }

/-- The `Bool`/`not` example as a program. -/
def prgEx : Prg := ⟨declsEx⟩

/-- A trivial module printer for test fixtures. -/
def printMEx : List MDecl → String := fun _ => "new type text"

/-- A trivial declaration printer for test fixtures. -/
def printDEx : MDecl → String := fun d => d.payload

/-- A trivial renamer for test fixtures. -/
def renameEx : MDecl → MDecl := id

/-- A module of three declarations at disjoint spans. -/
def moduleEx : Module :=
  ⟨[⟨"Bool", some ⟨0, 10⟩, "data Bool"⟩,
    ⟨"not", some ⟨12, 30⟩, "def not"⟩,
    ⟨"other", some ⟨32, 40⟩, "def other"⟩]⟩

/-- A module whose single declaration carries no span. -/
def moduleNoSpan : Module := ⟨[⟨"Bool", none, "data Bool"⟩]⟩

/-- A pivot result fixture. -/
def resultEx : XfuncResult :=
  ⟨"Refunctionalize Bool", [⟨"Bool", none, "codata Bool"⟩]⟩

/-- The name→span table of `moduleEx`. -/
def spansEx : List (String × Span) :=
  [("Bool", ⟨0, 10⟩), ("not", ⟨12, 30⟩), ("other", ⟨32, 40⟩)]

/-- An `Original` record fixture for pivoting `Bool` out of `moduleEx`. -/
def originalEx : Original := ⟨["not"], ⟨0, 10⟩, spansEx⟩

/-- A span-choice function fixture. -/
def sigmaEx : String → Span := fun n => if n = "not" then ⟨12, 30⟩ else ⟨32, 40⟩

/-- A declaration-choice function fixture. -/
def deltaEx : String → MDecl := fun _ => ⟨"other", some ⟨32, 40⟩, "def other"⟩

/-- The edit set expected for the `moduleEx` fixture. -/
def xfEx : Xfunc :=
  ⟨"Refunctionalize Bool",
   [⟨⟨0, 10⟩, "new type text"⟩, ⟨⟨32, 40⟩, "def other"⟩, ⟨⟨12, 30⟩, ""⟩]⟩

/-! ## Helper lemmas -/

theorem eval_env_preserved :
    ∀ (fuel : Nat) (prg : Prg),
      (∀ (e : Exp) (env : Env), (evalExp fuel prg e env).2 = env) ∧
      (∀ (es : List Exp) (env : Env), (evalExps fuel prg es env).2 = env) := by
  intro fuel
  induction fuel with
  | zero => exact fun _ => ⟨fun _ _ => rfl, fun _ _ => rfl⟩
  | succ fuel ih =>
    intro prg
    obtain ⟨ihE, ihES⟩ := ih prg
    refine ⟨?_, ?_⟩
    · intro e env
      cases e with
      | var span idx => rfl
      | typCtor span name args =>
        have h := ihES args env
        rcases hq : evalExps fuel prg args env with ⟨r, env1⟩
        rw [hq] at h
        cases r <;> simp [evalExp, hq] <;> exact h
      | call span name kind args =>
        have h := ihES args env
        rcases hq : evalExps fuel prg args env with ⟨r, env1⟩
        rw [hq] at h
        cases r <;> simp [evalExp, hq] <;> exact h
      | dotCall span exp name args =>
        have h1 := ihE exp env
        rcases hq1 : evalExp fuel prg exp env with ⟨r1, env1⟩
        rw [hq1] at h1
        cases r1 with
        | error err => simp [evalExp, hq1]; exact h1
        | ok v =>
          have h2 := ihES args env1
          rcases hq2 : evalExps fuel prg args env1 with ⟨r2, env2⟩
          rw [hq2] at h2
          cases r2 with
          | error err =>
            simp [evalExp, hq1, hq2]
            exact h2.trans h1
          | ok vs =>
            cases v with
            | ctor cspan kind ctorName ctorArgs =>
              simp only [evalExp, hq1, hq2]
              rcases htd : prg.decls.typeDeclForMember ctorName cspan with e | td
              · simpa using h2.trans h1
              · cases td with
                | data d =>
                  rcases hdf : prg.decls.lookupDef name none with e | fd <;>
                    simpa using h2.trans h1
                | codata d =>
                  rcases hcf : prg.decls.lookupCodef ctorName none with e | gd <;>
                    simpa using h2.trans h1
            | typCtor s n as => simp [evalExp, hq1, hq2]; exact h2.trans h1
            | comatch s n sug body => simp [evalExp, hq1, hq2]; exact h2.trans h1
            | typeUniv s => simp [evalExp, hq1, hq2]; exact h2.trans h1
            | neu x => simp [evalExp, hq1, hq2]; exact h2.trans h1
      | anno exp typ => exact ihE exp env
      | typeUniv span => rfl
      | localMatch span matchName onExp body =>
        have h1 := ihE onExp env
        rcases hq1 : evalExp fuel prg onExp env with ⟨r1, env1⟩
        rw [hq1] at h1
        cases r1 with
        | error err => simp [evalExp, hq1]; exact h1
        | ok v => cases v <;> simp [evalExp, hq1] <;> exact h1
      | localComatch span name sug body => rfl
      | hole span => rfl
    · intro es env
      cases es with
      | nil => rfl
      | cons e es =>
        have h1 := ihE e env
        rcases hq1 : evalExp fuel prg e env with ⟨r1, env1⟩
        rw [hq1] at h1
        cases r1 with
        | error err => simp [evalExps, hq1]; exact h1
        | ok v =>
          have h2 := ihES es env1
          rcases hq2 : evalExps fuel prg es env1 with ⟨r2, env2⟩
          rw [hq2] at h2
          cases r2 <;> simp [evalExps, hq1, hq2] <;> exact h2.trans h1

theorem except_bind_ok {ε α β : Type} (a : α) (f : α → Except ε β) :
    (Except.ok a >>= f) = f a := rfl

theorem except_bind_err {ε α β : Type} (e : ε) (f : α → Except ε β) :
    ((Except.error e : Except ε α) >>= f) = Except.error e := rfl

theorem mapME_ok_of_forall {ε α β : Type} {f : α → Except ε β} {g : α → β} :
    ∀ {l : List α}, (∀ a ∈ l, f a = .ok (g a)) → mapME f l = .ok (l.map g) := by
  intro l
  induction l with
  | nil => intro _; rfl
  | cons a l ih =>
    intro h
    have ha := h a (List.mem_cons_self a l)
    have hl := ih (fun x hx => h x (List.mem_cons_of_mem a hx))
    simp only [mapME, ha, hl, except_bind_ok, List.map_cons]

theorem mapME_ok_mem {ε α β : Type} {f : α → Except ε β} :
    ∀ {l : List α} {out : List β}, mapME f l = .ok out →
      ∀ b ∈ out, ∃ a ∈ l, f a = .ok b := by
  intro l
  induction l with
  | nil =>
    intro out h b hb
    simp [mapME] at h
    subst h
    simp at hb
  | cons a l ih =>
    intro out h b hb
    rcases ha : f a with e | x
    · rw [mapME, ha, except_bind_err] at h; simp at h
    · rcases hl : mapME f l with e | xs
      · rw [mapME, ha, except_bind_ok, hl, except_bind_err] at h; simp at h
      · rw [mapME, ha, except_bind_ok, hl, except_bind_ok] at h
        simp at h
        subst h
        rcases List.mem_cons.mp hb with hb1 | hb2
        · exact ⟨a, List.mem_cons_self a l, hb1 ▸ ha⟩
        · obtain ⟨a', ha', hfa'⟩ := ih hl b hb2
          exact ⟨a', List.mem_cons_of_mem a ha', hfa'⟩

theorem mapME_ok_pairwise {ε α β : Type} {f : α → Except ε β}
    {P : α → α → Prop} {R : β → β → Prop} :
    ∀ {l : List α} {out : List β}, mapME f l = .ok out → l.Pairwise P →
      (∀ a b x y, P a b → f a = .ok x → f b = .ok y → R x y) → out.Pairwise R := by
  intro l
  induction l with
  | nil =>
    intro out h _ _
    simp [mapME] at h
    subst h
    exact List.Pairwise.nil
  | cons a l ih =>
    intro out h hp hr
    rcases ha : f a with e | x
    · rw [mapME, ha, except_bind_err] at h; simp at h
    · rcases hl : mapME f l with e | xs
      · rw [mapME, ha, except_bind_ok, hl, except_bind_err] at h; simp at h
      · rw [mapME, ha, except_bind_ok, hl, except_bind_ok] at h
        simp at h
        subst h
        rcases List.pairwise_cons.mp hp with ⟨hpa, hpl⟩
        refine List.pairwise_cons.mpr ⟨?_, ih hl hpl hr⟩
        intro y hy
        obtain ⟨b, hb, hfb⟩ := mapME_ok_mem hl y hy
        exact hr a b x y (hpa b hb) ha hfb

theorem lookupSpan_mem {spans : List (String × Span)} {name : String} {s : Span} :
    lookupSpan spans name = some s → (name, s) ∈ spans := by
  intro h
  unfold lookupSpan at h
  rcases hf : spans.find? (fun p => p.1 == name) with _ | p
  · rw [hf] at h; simp at h
  · rw [hf] at h
    simp at h
    have hmem := List.mem_of_find?_eq_some hf
    have hpred := List.find?_some hf
    simp at hpred
    have : p = (name, s) := by
      rcases p with ⟨p1, p2⟩
      simp at hpred h
      rw [hpred, h]
    rw [← this]
    exact hmem

theorem span_disjoint_symm {s t : Span} : Span.Disjoint s t → Span.Disjoint t s := by
  intro h
  rcases h with h | h
  · exact Or.inr h
  · exact Or.inl h

theorem collectDeclSpans_panics {decls : List MDecl} {d : MDecl} :
    d ∈ decls → d.span = none →
      collectDeclSpans decls = .error (.panic unwrapMsg) := by
  intro hmem hnone
  induction decls with
  | nil => simp at hmem
  | cons a l ih =>
    rcases List.mem_cons.mp hmem with h1 | h2
    · subst h1
      unfold collectDeclSpans mapME
      rw [hnone]
      rfl
    · rcases ha : a.span with _ | s
      · unfold collectDeclSpans mapME
        rw [ha]
        rfl
      · have hrec := ih h2
        unfold collectDeclSpans at hrec ⊢
        unfold mapME
        rw [ha, hrec]
        rfl

/-! ## Claim theorems -/

/-- C1, counterexample: at β-match (and β-comatch) with a constructor name
that no case carries, or with a selected case declared absurd, the evaluator
panics (`unwrap` on `None`); it does not return an `Impossible` error result. -/
theorem c1_beta_match_counterexample :
    resIsUnwrapPanic (betaMatch 1 prgEmpty matchNoCases "C" []) = true ∧
    resIsImpossible (betaMatch 1 prgEmpty matchNoCases "C" []) = false ∧
    resIsUnwrapPanic (betaMatch 1 prgEmpty matchAbsurd "C" []) = true ∧
    resIsImpossible (betaMatch 1 prgEmpty matchAbsurd "C" []) = false ∧
    resIsUnwrapPanic (betaComatch 1 prgEmpty matchNoCases "fst" []) = true ∧
    resIsImpossible (betaComatch 1 prgEmpty matchNoCases "fst" []) = false :=
  ⟨rfl, rfl, rfl, rfl, rfl, rfl⟩

/-- C1, amended: when `beta_match` (or `beta_comatch`) is reached with a
constructor (resp. destructor) name that no case of the body carries, or the
selected case is declared absurd (`body = None`), the evaluator crashes with
the `unwrap`-on-`None` panic rather than returning an `Impossible` error. -/
theorem c1_beta_match_missing_or_absurd_panics (fuel : Nat) (prg : Prg) (body : VMatch)
    (c : String) (args : List Val) :
    (body.cases.find? (fun cs => cs.name == c) = none →
      betaMatch (fuel + 1) prg body c args = .error (.panic unwrapMsg) ∧
      betaComatch (fuel + 1) prg body c args = .error (.panic unwrapMsg)) ∧
    (∀ cs, body.cases.find? (fun x => x.name == c) = some cs → cs.body = none →
      betaMatch (fuel + 1) prg body c args = .error (.panic unwrapMsg) ∧
      betaComatch (fuel + 1) prg body c args = .error (.panic unwrapMsg)) := by
  constructor
  · intro h
    exact ⟨by simp [betaMatch, h], by simp [betaComatch, h]⟩
  · intro cs h1 h2
    exact ⟨by simp [betaMatch, h1, h2], by simp [betaComatch, h1, h2]⟩

/-- C1, witness: the amended theorem applied to a body with no matching case. -/
theorem c1_witness :
    matchNoCases.cases.find? (fun cs => cs.name == "C") = none ∧
    betaMatch 1 prgEmpty matchNoCases "C" [] = .error (.panic unwrapMsg) :=
  ⟨rfl, ((c1_beta_match_missing_or_absurd_panics 0 prgEmpty matchNoCases "C" []).1 rfl).1⟩

/-- C2, counterexample: a `Call` with kind `Codef` evaluates to a
constructor-shaped value even when the declaration table is empty, so the
`codef` declaration is not read and its body is not evaluated. -/
theorem c2_call_counterexample :
    evalExp 2 prgEmpty (Exp.call none "p" CallKind.codef []) [] =
      (Except.ok (Val.ctor none CallKind.codef "p" []), ([] : Env)) ∧
    prgEmpty.decls.lookupCodef "p" none =
      Except.error (LookupError.undefinedDeclaration "p" none) :=
  ⟨rfl, rfl⟩

/-- C2, amended: `eval(Call(n, kind, args))` yields the constructor-shaped
value `Ctor(kind, n, eval(args))` for every kind (Ctor, Codef and Def alike),
without consulting the declaration table; codef and def bodies are unfolded
only when a `DotCall` eliminates the value. -/
theorem c2_call_always_ctor_value (fuel : Nat) (prg : Prg) (span : Option Span)
    (name : String) (kind : CallKind) (args : List Exp) (env env1 : Env) (vs : List Val)
    (h : evalExps fuel prg args env = (.ok vs, env1)) :
    evalExp (fuel + 1) prg (.call span name kind args) env =
      (.ok (.ctor span kind name vs), env1) := by
  simp [evalExp, h]

/-- C2, witness: the amended theorem applied to a nullary `Def`-kind call. -/
theorem c2_witness :
    evalExps 1 prgEmpty [] [] = (Except.ok ([] : List Val), ([] : Env)) ∧
    evalExp 2 prgEmpty (Exp.call none "q" CallKind.defKind []) [] =
      (Except.ok (Val.ctor none CallKind.defKind "q" []), ([] : Env)) :=
  ⟨rfl, c2_call_always_ctor_value 1 prgEmpty none "q" CallKind.defKind [] [] [] [] rfl⟩

/-- C4: evaluation is deterministic and side-effect-free except for error
production — two runs of `eval` on the same expression, environment and
declaration table return the same result, and the environment state `eval`
leaves behind equals the one it was given (the declaration table is read-only
by construction: `eval` takes it behind an immutable reference). -/
theorem c4_eval_deterministic_and_pure (fuel : Nat) (prg : Prg) (e : Exp) (env : Env)
    (r1 r2 : Res Val × Env) (h1 : evalExp fuel prg e env = r1)
    (h2 : evalExp fuel prg e env = r2) :
    r1 = r2 ∧ r1.2 = env := by
  constructor
  · rw [← h1, ← h2]
  · rw [← h1]
    exact (eval_env_preserved fuel prg).1 e env

/-- C4, witness: determinism and environment preservation at a concrete input. -/
theorem c4_witness :
    evalExp 2 prgEmpty (Exp.hole none) [] =
      (Except.ok (Val.neu (Neu.hole none)), ([] : Env)) ∧
    ((Except.ok (Val.neu (Neu.hole none)), ([] : Env)) : Res Val × Env).2 = ([] : Env) :=
  ⟨rfl,
   (c4_eval_deterministic_and_pure 2 prgEmpty (Exp.hole none) []
      (Except.ok (Val.neu (Neu.hole none)), [])
      (Except.ok (Val.neu (Neu.hole none)), []) rfl rfl).2⟩

/-- C5: `type_decl_for_member(name)` consults the xtor-to-type index first
(its answer wins regardless of the xdef index); only on a miss does it consult
the xdef-to-type index; and when both miss it returns
`MissingTypeDeclaration(name)`. -/
theorem c5_type_decl_for_member_order (decls : Decls) (name : String) (span : Option Span) :
    (∀ t, lookupA decls.xtorToType name = some t →
      decls.typeDeclForMember name span = decls.typ t none) ∧
    (lookupA decls.xtorToType name = none →
      ∀ t, lookupA decls.xdefToType name = some t →
        decls.typeDeclForMember name span = decls.typ t none) ∧
    (lookupA decls.xtorToType name = none → lookupA decls.xdefToType name = none →
      decls.typeDeclForMember name span =
        .error (.missingTypeDeclaration name span)) := by
  refine ⟨?_, ?_, ?_⟩
  · intro t h
    simp [Decls.typeDeclForMember, h, Option.orElse]
  · intro h1 t h2
    simp [Decls.typeDeclForMember, h1, h2, Option.orElse]
  · intro h1 h2
    simp [Decls.typeDeclForMember, h1, h2, Option.orElse]

/-- C5, witness: in the `Bool` fixture the constructor `T` resolves through
the xtor index to the type `Bool`. -/
theorem c5_witness :
    lookupA declsEx.xtorToType "T" = some "Bool" ∧
    declsEx.typeDeclForMember "T" none = declsEx.typ "Bool" none :=
  ⟨rfl, (c5_type_decl_for_member_order declsEx "T" none).1 "Bool" rfl⟩

/-- C6: every declaration-table accessor returns the requested shape or a
typed lookup error — an unbound name yields `UndefinedDeclaration(name)` from
every accessor, and `data(name)` on a name bound to a declaration of any other
kind yields `InvalidDeclarationKind` with expected `{Data}` and the actual
kind. -/
theorem c6_lookup_typed_errors (decls : Decls) (name : String) (span : Option Span) :
    (lookupA decls.map name = none →
      decls.decl name span = .error (.undefinedDeclaration name span) ∧
      decls.typ name span = .error (.undefinedDeclaration name span) ∧
      decls.data name span = .error (.undefinedDeclaration name span) ∧
      decls.codata name span = .error (.undefinedDeclaration name span) ∧
      decls.lookupDef name span = .error (.undefinedDeclaration name span) ∧
      decls.lookupCodef name span = .error (.undefinedDeclaration name span) ∧
      decls.ctor name span = .error (.undefinedDeclaration name span) ∧
      decls.dtor name span = .error (.undefinedDeclaration name span) ∧
      decls.ctorOrCodef name span = .error (.undefinedDeclaration name span) ∧
      decls.dtorOrDef name span = .error (.undefinedDeclaration name span)) ∧
    (∀ d, lookupA decls.map name = some d → d.kind ≠ DeclKind.data →
      decls.data name span =
        .error (.invalidDeclarationKind name [DeclKind.data] d.kind span)) := by
  constructor
  · intro h
    refine ⟨?_, ?_, ?_, ?_, ?_, ?_, ?_, ?_, ?_, ?_⟩ <;>
      simp [Decls.decl, Decls.typ, Decls.data, Decls.codata, Decls.lookupDef,
        Decls.lookupCodef, Decls.ctor, Decls.dtor, Decls.ctorOrCodef,
        Decls.dtorOrDef, h, except_bind_err]
  · intro d h hk
    cases d with
    | data dd => exact absurd rfl hk
    | codata dd => simp [Decls.data, Decls.decl, h, except_bind_ok, Decl.kind]
    | defDecl dd => simp [Decls.data, Decls.decl, h, except_bind_ok, Decl.kind]
    | codef dd => simp [Decls.data, Decls.decl, h, except_bind_ok, Decl.kind]
    | ctor dd => simp [Decls.data, Decls.decl, h, except_bind_ok, Decl.kind]
    | dtor dd => simp [Decls.data, Decls.decl, h, except_bind_ok, Decl.kind]

/-- C6, witness: `data("not")` when `not` is a `def` yields
`InvalidDeclarationKind { expected: {Data}, actual: Def }`. -/
theorem c6_witness :
    lookupA declsEx.map "not" = some (Decl.defDecl ⟨"not", notBody⟩) ∧
    declsEx.data "not" none =
      .error (.invalidDeclarationKind "not" [DeclKind.data] DeclKind.defKind none) :=
  ⟨rfl,
   (c6_lookup_typed_errors declsEx "not" none).2 (Decl.defDecl ⟨"not", notBody⟩) rfl
     (by decide)⟩

/-- C3: `DotCall(e, n, args)` dispatch — when the receiver evaluates to a
constructor value `c(ca)` whose owning type is a data type, `def n`'s body is
evaluated in a fresh environment extended with the dot-call args and β-matched
against `(c, ca)`; when the owning type is a codata type, `codef c`'s body is
evaluated under `ca` and β-comatched against `(n, args)`; when the receiver
evaluates to a neutral `x`, the result is the neutral `Dtor(x, n, args)` with
no reduction. -/
theorem c3_dotcall_dispatch (fuel : Nat) (prg : Prg) (span : Option Span) (exp : Exp)
    (name : String) (args : List Exp) (env env1 env2 : Env) (v : Val) (vs : List Val)
    (hexp : evalExp fuel prg exp env = (.ok v, env1))
    (hargs : evalExps fuel prg args env1 = (.ok vs, env2)) :
    (∀ cspan kind c ca, v = Val.ctor cspan kind c ca →
      (∀ dd, prg.decls.typeDeclForMember c cspan = .ok (.data dd) →
        ∀ fd, prg.decls.lookupDef name none = .ok fd →
          evalExp (fuel + 1) prg (.dotCall span exp name args) env =
            (betaMatch fuel prg (evalSMatch fd.body (Env.bind vs [])) c ca, env2)) ∧
      (∀ cd, prg.decls.typeDeclForMember c cspan = .ok (.codata cd) →
        ∀ gd, prg.decls.lookupCodef c none = .ok gd →
          evalExp (fuel + 1) prg (.dotCall span exp name args) env =
            (betaComatch fuel prg (evalSMatch gd.body (Env.bind ca [])) name vs, env2))) ∧
    (∀ x, v = Val.neu x →
      evalExp (fuel + 1) prg (.dotCall span exp name args) env =
        (.ok (.neu (.dtor span x name vs)), env2)) := by
  constructor
  · intro cspan kind c ca hv
    subst hv
    constructor
    · intro dd htd fd hdf
      simp [evalExp, hexp, hargs, htd, hdf]
    · intro cd htd gd hcf
      simp [evalExp, hexp, hargs, htd, hcf]
  · intro x hv
    subst hv
    simp [evalExp, hexp, hargs]

/-- C3, witness: in the `Bool` fixture, `T.not` dispatches through the data
branch and β-matches to `F` — together with the neutral branch this
instantiates the dispatch theorem. -/
theorem c3_witness :
    evalExp 5 prgEx (Exp.call none "T" CallKind.ctor []) [] =
      (Except.ok (Val.ctor none CallKind.ctor "T" []), ([] : Env)) ∧
    evalExp 6 prgEx (Exp.dotCall none (Exp.call none "T" CallKind.ctor []) "not" []) [] =
      (betaMatch 5 prgEx (evalSMatch notBody (Env.bind [] [])) "T" [], ([] : Env)) ∧
    betaMatch 5 prgEx (evalSMatch notBody (Env.bind [] [])) "T" [] =
      Except.ok (Val.ctor none CallKind.ctor "F" []) :=
  ⟨rfl,
   ((c3_dotcall_dispatch 5 prgEx none (Exp.call none "T" CallKind.ctor []) "not" []
        [] [] [] (Val.ctor none CallKind.ctor "T" []) [] rfl rfl).1
      none CallKind.ctor "T" [] rfl).1 ⟨"Bool"⟩ rfl ⟨"not", notBody⟩ rfl,
   rfl⟩

/-- C9: `xfunc` unwraps `decl.span()` for every top-level declaration when
collecting `decl_spans`, so a module containing any span-less declaration
makes it panic instead of returning an `XfuncError`. -/
theorem c9_spanless_decl_panics (printM : List MDecl → String) (printD : MDecl → String)
    (rename : MDecl → MDecl) (module : Module) (typeName : String)
    (xdefs xtors dirty0 : List String) (matRowSpan : Option (Option Span))
    (result : XfuncResult) (d : MDecl) (hmem : d ∈ module.decls)
    (hnone : d.span = none) :
    xfuncSkeleton printM printD rename module typeName xdefs xtors dirty0 matRowSpan
      result = .error (.panic unwrapMsg) := by
  have h := collectDeclSpans_panics hmem hnone
  unfold xfuncSkeleton
  rw [h, except_bind_err]

/-- C9, witness: a module whose only declaration is span-less makes the xfunc
skeleton panic. -/
theorem c9_witness :
    (⟨"Bool", none, "data Bool"⟩ : MDecl) ∈ moduleNoSpan.decls ∧
    xfuncSkeleton printMEx printDEx renameEx moduleNoSpan "Bool" [] [] []
      (some (some ⟨0, 10⟩)) resultEx = .error (.panic unwrapMsg) :=
  ⟨List.mem_cons_self _ _,
   c9_spanless_decl_panics printMEx printDEx renameEx moduleNoSpan "Bool" [] [] []
     (some (some ⟨0, 10⟩)) resultEx ⟨"Bool", none, "data Bool"⟩
     (List.mem_cons_self _ _) rfl⟩

/-- C10: with `--update-expected` the per-test results are not printed (only
the update confirmation), yet the exit code is still 1 when the run failed and
0 when all tests passed; the filter defaults to `"*"` when `--filter` is
absent and is passed through verbatim when present. -/
theorem c10_update_expected_behaviour (run : Config → RunResult)
    (filterOpt : Option String) (debug upd : Bool) (f : String) :
    (exec run ⟨filterOpt, debug, true⟩).printedPerTest = false ∧
    (exec run ⟨filterOpt, debug, true⟩).printedUpdateMsg = true ∧
    (exec run ⟨filterOpt, debug, true⟩).updatedExpected = true ∧
    (exec run ⟨filterOpt, debug, true⟩).exitCode =
      (if (run (exec run ⟨filterOpt, debug, true⟩).config).success then 0 else 1) ∧
    (exec run ⟨none, debug, upd⟩).config.filter = "*" ∧
    (exec run ⟨some f, debug, upd⟩).config.filter = f := by
  refine ⟨rfl, rfl, rfl, ?_, ?_, ?_⟩
  · simp only [exec]
    cases h : (run { filter := filterOpt.getD "*", debug := debug }).success <;>
      simp [h]
  · cases upd <;> rfl
  · cases upd <;> rfl

/-- C7: a successful `generate_edits` produces exactly one edit replacing the
span of the original (co)data declaration with the serialized new declarations,
then one edit per dirty declaration (renamed and re-rendered at its recorded
span), then one empty-text edit per original xdef. -/
theorem c7_generate_edits_shape (printM : List MDecl → String) (printD : MDecl → String)
    (rename : MDecl → MDecl) (module : Module) (original : Original)
    (dirtyDecls : List String) (result : XfuncResult)
    (σ : String → Span) (δ : String → MDecl)
    (hd : ∀ n ∈ dirtyDecls, module.lookupDecl n = some (δ n))
    (hs : ∀ n ∈ dirtyDecls, lookupSpan original.declSpans n = some (σ n))
    (hx : ∀ n ∈ original.xdefs, lookupSpan original.declSpans n = some (σ n)) :
    generateEdits printM printD rename module original dirtyDecls result =
      .ok { title := result.title
            edits := Edit.mk original.typeSpan (printM result.newDecls) ::
              (dirtyDecls.map (fun n => Edit.mk (σ n) (printD (rename (δ n)))) ++
               original.xdefs.map (fun n => Edit.mk (σ n) "")) } := by
  unfold generateEdits
  rw [mapME_ok_of_forall (g := fun n => Edit.mk (σ n) (printD (rename (δ n))))
        (fun n hn => by simp [dirtyEditOf, hd n hn, hs n hn, except_bind_ok]),
      except_bind_ok,
      mapME_ok_of_forall (g := fun n => Edit.mk (σ n) "")
        (fun n hn => by simp [deleteEditOf, hx n hn]),
      except_bind_ok]

/-- C7, witness: the fixture module with one dirty declaration and one xdef
yields the expected three edits. -/
theorem c7_witness :
    (∀ n ∈ ["other"], moduleEx.lookupDecl n = some (deltaEx n)) ∧
    generateEdits printMEx printDEx renameEx moduleEx originalEx ["other"] resultEx =
      .ok xfEx := by
  refine ⟨by decide, ?_⟩
  have h := c7_generate_edits_shape printMEx printDEx renameEx moduleEx originalEx
    ["other"] resultEx sigmaEx deltaEx (by decide) (by decide) (by decide)
  exact h

theorem dirtyEditOf_ok_span {printD : MDecl → String} {rename : MDecl → MDecl}
    {module : Module} {spans : List (String × Span)} {n : String} {e : Edit}
    (h : dirtyEditOf printD rename module spans n = .ok e) :
    ∃ s, lookupSpan spans n = some s ∧ e.span = s := by
  unfold dirtyEditOf at h
  rcases hd : module.lookupDecl n with _ | d
  · rw [hd] at h
    simp [except_bind_err] at h
  · rw [hd] at h
    rcases hs : lookupSpan spans n with _ | s
    · rw [hs] at h
      simp [except_bind_ok, except_bind_err] at h
    · rw [hs] at h
      simp [except_bind_ok] at h
      subst h
      exact ⟨s, rfl, rfl⟩

theorem deleteEditOf_ok_span {spans : List (String × Span)} {n : String} {e : Edit}
    (h : deleteEditOf spans n = .ok e) :
    ∃ s, lookupSpan spans n = some s ∧ e.span = s ∧ e.text = "" := by
  unfold deleteEditOf at h
  rcases hs : lookupSpan spans n with _ | s
  · rw [hs] at h
    simp at h
  · rw [hs] at h
    simp at h
    subst h
    exact ⟨s, rfl, rfl, rfl⟩

/-- C8: all spans in an edit set produced by the xfunc pipeline are pairwise
disjoint, given that the recorded declaration spans are pairwise disjoint,
the pivoted type's span is disjoint from every other declaration's span, the
lift step did not modify the pivoted type declaration itself, and the xdef and
dirty name lists contain no duplicates. -/
theorem c8_edit_spans_disjoint (printM : List MDecl → String) (printD : MDecl → String)
    (rename : MDecl → MDecl) (module : Module) (typeName : String)
    (xdefs xtors dirty0 : List String) (ts : Span) (result : XfuncResult)
    (spans : List (String × Span)) (xf : Xfunc)
    (hcol : collectDeclSpans module.decls = .ok spans)
    (hpw : spans.Pairwise (fun p q => Span.Disjoint p.2 q.2))
    (hts : ∀ p ∈ spans, p.1 ≠ typeName → Span.Disjoint ts p.2)
    (htd : typeName ∉ dirty0)
    (htx : typeName ∉ xdefs)
    (hnd : dirty0.Nodup)
    (hxd : xdefs.Nodup)
    (hok : xfuncSkeleton printM printD rename module typeName xdefs xtors dirty0
      (some (some ts)) result = .ok xf) :
    xf.edits.Pairwise (fun e1 e2 => Span.Disjoint e1.span e2.span) := by
  unfold xfuncSkeleton at hok
  rw [hcol, except_bind_ok] at hok
  replace hok :
      (do
        let dirtyEdits ← mapME (dirtyEditOf printD rename module spans)
          (dirty0.filter (fun n => !(xdefs.contains n || xtors.contains n)))
        let deleteEdits ← mapME (deleteEditOf spans) xdefs
        Except.ok
          ({ title := result.title
             edits := Edit.mk ts (printM result.newDecls) ::
               (dirtyEdits ++ deleteEdits) } : Xfunc)) =
      .ok xf := hok
  rcases h1 : mapME (dirtyEditOf printD rename module spans)
      (dirty0.filter (fun n => !(xdefs.contains n || xtors.contains n))) with e1 | dirtyEdits
  · rw [h1, except_bind_err] at hok
    exact absurd hok (by simp)
  · rw [h1, except_bind_ok] at hok
    rcases h2 : mapME (deleteEditOf spans) xdefs with e2 | delEdits
    · rw [h2, except_bind_err] at hok
      exact absurd hok (by simp)
    · rw [h2, except_bind_ok] at hok
      have hxf := (Except.ok.inj hok).symm
      subst hxf
      show (Edit.mk ts (printM result.newDecls) :: (dirtyEdits ++ delEdits)).Pairwise _
      have hsymm : Symmetric (fun p q : String × Span => Span.Disjoint p.2 q.2) :=
        fun _ _ h => span_disjoint_symm h
      have hget : ∀ p ∈ spans, ∀ q ∈ spans, p ≠ q → Span.Disjoint p.2 q.2 :=
        fun _ hp _ hq hne => hpw.forall hsymm hp hq hne
      have hdirtyName :
          ∀ n ∈ dirty0.filter (fun n => !(xdefs.contains n || xtors.contains n)),
            n ∈ dirty0 ∧ n ∉ xdefs := by
        intro n hn
        obtain ⟨hmem, hpred⟩ := List.mem_filter.mp hn
        refine ⟨hmem, ?_⟩
        intro hin
        simp at hpred
        exact hpred.1 hin
      have hdirtySpan : ∀ ed ∈ dirtyEdits,
          ∃ n s, n ∈ dirty0.filter (fun n => !(xdefs.contains n || xtors.contains n)) ∧
            (n, s) ∈ spans ∧ ed.span = s := by
        intro ed hed
        obtain ⟨n, hn, hfn⟩ := mapME_ok_mem h1 ed hed
        obtain ⟨s, hs, hsp⟩ := dirtyEditOf_ok_span hfn
        exact ⟨n, s, hn, lookupSpan_mem hs, hsp⟩
      have hdelSpan : ∀ ed ∈ delEdits,
          ∃ n s, n ∈ xdefs ∧ (n, s) ∈ spans ∧ ed.span = s := by
        intro ed hed
        obtain ⟨n, hn, hfn⟩ := mapME_ok_mem h2 ed hed
        obtain ⟨s, hs, hsp, _⟩ := deleteEditOf_ok_span hfn
        exact ⟨n, s, hn, lookupSpan_mem hs, hsp⟩
      refine List.pairwise_cons.mpr ⟨?_, ?_⟩
      · intro ed hed
        rcases List.mem_append.mp hed with hd1 | hd2
        · obtain ⟨n, s, hn, hmem, hsp⟩ := hdirtySpan ed hd1
          have hne : n ≠ typeName := fun hEq => htd (hEq ▸ (hdirtyName n hn).1)
          have := hts (n, s) hmem hne
          show Span.Disjoint ts ed.span
          rw [hsp]
          exact this
        · obtain ⟨n, s, hn, hmem, hsp⟩ := hdelSpan ed hd2
          have hne : n ≠ typeName := fun hEq => htx (hEq ▸ hn)
          have := hts (n, s) hmem hne
          show Span.Disjoint ts ed.span
          rw [hsp]
          exact this
      · refine List.pairwise_append.mpr ⟨?_, ?_, ?_⟩
        · refine mapME_ok_pairwise (P := Ne) h1 (hnd.filter _) ?_
          intro a b x y hab hfa hfb
          obtain ⟨sa, hsa, hspa⟩ := dirtyEditOf_ok_span hfa
          obtain ⟨sb, hsb, hspb⟩ := dirtyEditOf_ok_span hfb
          have hne : ((a : String), sa) ≠ (b, sb) :=
            fun hEq => hab (congrArg Prod.fst hEq)
          have := hget _ (lookupSpan_mem hsa) _ (lookupSpan_mem hsb) hne
          rw [hspa, hspb]
          exact this
        · refine mapME_ok_pairwise (P := Ne) h2 hxd ?_
          intro a b x y hab hfa hfb
          obtain ⟨sa, hsa, hspa, _⟩ := deleteEditOf_ok_span hfa
          obtain ⟨sb, hsb, hspb, _⟩ := deleteEditOf_ok_span hfb
          have hne : ((a : String), sa) ≠ (b, sb) :=
            fun hEq => hab (congrArg Prod.fst hEq)
          have := hget _ (lookupSpan_mem hsa) _ (lookupSpan_mem hsb) hne
          rw [hspa, hspb]
          exact this
        · intro x hx y hy
          obtain ⟨n, sn, hn, hmn, hspn⟩ := hdirtySpan x hx
          obtain ⟨m, sm, hm, hmm, hspm⟩ := hdelSpan y hy
          have hne : n ≠ m := fun hEq => (hdirtyName n hn).2 (hEq ▸ hm)
          have hne2 : ((n : String), sn) ≠ (m, sm) :=
            fun hEq => hne (congrArg Prod.fst hEq)
          have := hget _ hmn _ hmm hne2
          rw [hspn, hspm]
          exact this

/-- C8, witness: the fixture pipeline run yields three pairwise-disjoint
edits. -/
theorem c8_witness :
    collectDeclSpans moduleEx.decls = .ok spansEx ∧
    xfuncSkeleton printMEx printDEx renameEx moduleEx "Bool" ["not"] ["T", "F"]
      ["other"] (some (some ⟨0, 10⟩)) resultEx = .ok xfEx ∧
    xfEx.edits.Pairwise (fun e1 e2 => Span.Disjoint e1.span e2.span) :=
  ⟨rfl, rfl,
   c8_edit_spans_disjoint printMEx printDEx renameEx moduleEx "Bool" ["not"] ["T", "F"]
     ["other"] ⟨0, 10⟩ resultEx spansEx xfEx rfl (by decide) (by decide) (by decide)
     (by decide) (by decide) (by decide) rfl⟩

end Polarity
